import Mathlib

/-!
# Verification of the kso_utils classification-aggregation engine

This file gives a shallow embedding, in Lean 4, of the aggregation core of
the `kso_utils` repository (file `t8_utils.py`): the annotation flatteners
(`process_frames`, `process_clips`), the participation/agreement filter
(`aggregrate_labels`), the metadata join of `get_classifications`, the clip
reducer and the frame branch of `aggregrate_classifications`.

Pandas dataframes are modelled as lists of structure values; a nullable
column is an `Option` field (pandas `NaN` = `none`).  Floats are modelled by
`ℚ` (every value the code manipulates here is produced by exact arithmetic
on user-supplied numbers).  Pandas `groupby.transform` over a column is
modelled row-wise: the derived value of a row is a function of the rows
sharing its key, and rows whose key is null receive `none`, matching
pandas' exclusion of null keys from groups.
-/

namespace KsoUtils

/-- A generic left merge (`pd.merge(..., how="left", on=key)`): every left
row is paired with each matching right row, or with `none` when no right
row matches. -/
def leftMergeBy (matchR : α → β → Bool) (combine : α → Option β → γ)
    (lefts : List α) (rights : List β) : List γ :=
  lefts.flatMap (fun a =>
    match rights.filter (matchR a) with
    | [] => [combine a none]
    | bs => bs.map (fun b => combine a (some b)))

/-! ## `aggregrate_labels` (t8_utils.py lines 372-404)

The function is generic over the dataframe it receives (frame rows and clip
rows both pass through it); only the `subject_ids`, `classification_id` and
`label` columns are inspected.  `LabelProj` packages the projections to
those three columns; `subj` and `lab` return `Option` values because the
corresponding pandas columns are nullable after a left merge. -/

structure LabelProj (α : Type) where
  subj : α → Option Nat
  cid : α → Nat
  lab : α → Option String

/-- A row of a dataframe that `aggregrate_labels` has worked on: the original
row plus the three derived columns the function assigns.  A `none` field
means the column has not been added to this dataframe. -/
structure Mutated (α : Type) where
  base : α
  n_users : Option Nat
  class_n : Option Nat
  class_prop : Option ℚ
deriving Repr, DecidableEq

/-- `raw_class_df.groupby("subject_ids")["classification_id"].transform("nunique")`
for the group of subject `s`: the number of distinct classification ids among
the rows carrying subject `s`. -/
def nUsersOf (P : LabelProj α) (df : List α) (s : Nat) : Nat :=
  (((df.filter (fun r => decide (P.subj r = some s))).map P.cid).dedup).length

/-- Line 386: the in-place assignment `raw_class_df["n_users"] = ...`.  This
is the caller's dataframe after the call: every row has gained `n_users`
(null for rows with a null subject key, as pandas leaves non-grouped rows),
and no other column. -/
def mutInit (P : LabelProj α) (df : List α) : List (Mutated α) :=
  df.map (fun r => ⟨r, (P.subj r).map (nUsersOf P df), none, none⟩)

/-- Line 391: the participation predicate `raw_class_df.n_users >= min_users`
(a null `n_users` compares false). -/
def partPred (min_users : Int) (m : Mutated α) : Bool :=
  match m.n_users with
  | some n => decide (min_users ≤ (n : Int))
  | none => false

/-- Line 391: the participation filter
`raw_class_df[raw_class_df.n_users >= min_users]`. -/
def partStage (P : LabelProj α) (df : List α) (min_users : Int) : List (Mutated α) :=
  (mutInit P df).filter (partPred min_users)

/-- Lines 394-396:
`groupby(["subject_ids", "label"])["classification_id"].transform("count")`
evaluated at row `m` of the filtered dataframe `fl`: the number of rows of
`fl` sharing `m`'s subject and label (null when either key is null). -/
def classNOf (P : LabelProj α) (fl : List (Mutated α)) (m : Mutated α) : Option Nat :=
  match P.subj m.base, P.lab m.base with
  | some s, some l =>
      some ((fl.filter (fun m2 =>
        decide (P.subj m2.base = some s) && decide (P.lab m2.base = some l))).length)
  | _, _ => none

/-- Lines 394-396 applied to the whole filtered dataframe. -/
def cnStage (P : LabelProj α) (df : List α) (min_users : Int) : List (Mutated α) :=
  let fl := partStage P df min_users
  fl.map (fun m => { m with class_n := classNOf P fl m })

/-- Line 399: `raw_class_df["class_prop"] = raw_class_df.class_n / raw_class_df.n_users`. -/
def cpStage (P : LabelProj α) (df : List α) (min_users : Int) : List (Mutated α) :=
  (cnStage P df min_users).map (fun m =>
    { m with class_prop := m.class_n.bind (fun n => m.n_users.map (fun u => (n : ℚ) / (u : ℚ))) })

/-- Line 402: the agreement predicate `raw_class_df.class_prop >= agg_users`
(a null `class_prop` compares false). -/
def aggPred (agg_users : ℚ) (m : Mutated α) : Bool :=
  match m.class_prop with
  | some p => decide (agg_users ≤ p)
  | none => false

/-- Line 402: the agreement filter. -/
def aggStage (P : LabelProj α) (df : List α) (agg_users : ℚ) (min_users : Int) :
    List (Mutated α) :=
  (cpStage P df min_users).filter (aggPred agg_users)

/-- `aggregrate_labels` (lines 372-404).  Returns the pair
(caller's dataframe after the in-place mutation of line 386,
returned aggregated dataframe).  The assignments of lines 394 and 399 land
on the fresh dataframe produced by the filter of line 391
(`reset_index(drop=True)` copies), not on the caller's dataframe. -/
def aggregrate_labels (P : LabelProj α) (df : List α) (agg_users : ℚ) (min_users : Int) :
    List (Mutated α) × List (Mutated α) :=
  (mutInit P df, aggStage P df agg_users min_users)

/-! ### The flattened-classification row type used by the filter claims -/

/-- A row of a flattened classification table, keeping the columns
`aggregrate_labels` and the participation discussion need. -/
structure ClassRow where
  classification_id : Nat
  subject_ids : Nat
  user_name : String
  label : String
deriving Repr, DecidableEq

/-- Projections for a `ClassRow` table: `subject_ids` and `label` are
non-null columns here. -/
def classProj : LabelProj ClassRow :=
  ⟨fun r => some r.subject_ids, ClassRow.classification_id, fun r => some r.label⟩

/-- The number of distinct user identifiers among the rows of subject `s` —
what the spec says the participation filter counts (the code instead counts
distinct classification ids, see `nUsersOf`). -/
def distinctUsersOf (df : List ClassRow) (s : Nat) : Nat :=
  (((df.filter (fun r => decide (r.subject_ids = s))).map (·.user_name)).dedup).length

/-! ### Concrete tables used for counterexamples and witnesses -/

/-- One user, two classifications (distinct classification ids) of subject 1. -/
def dfC1 : List ClassRow := [⟨100, 1, "alice", "fish"⟩, ⟨101, 1, "alice", "fish"⟩]

/-- One classification flattened into two rows with the same subject and label
(for clips, a project extractor may well yield the same species twice in one
classification). -/
def dfC3 : List ClassRow := [⟨10, 1, "alice", "fish"⟩, ⟨10, 1, "alice", "fish"⟩]

/-- Two subjects, one classification each. -/
def dfC4 : List ClassRow := [⟨100, 1, "alice", "fish"⟩, ⟨200, 2, "bob", "crab"⟩]

/-! ## `process_frames` (t8_utils.py lines 649-732)

The annotation payload, already parsed from JSON (the claims assume a
parseable payload), is a list of task entries; each entry carries a task
tag and a list of drawn shapes.  A shape is a dictionary, so each field is
optional, matching `int(i["x"]) if "x" in i else None` etc. -/

/-- One drawn shape of a task entry (`i` in the loop of line 687). -/
structure Shape where
  x : Option Int
  y : Option Int
  width : Option Int
  height : Option Int
  tool_label : Option String
deriving Repr, DecidableEq

/-- One task entry of the annotations payload (`ann_i`, line 670). -/
structure TaskAnn where
  task : String
  value : List Shape
deriving Repr, DecidableEq

/-- One raw frame-mode classification row handed to `process_frames`. -/
structure FrameSub where
  classification_id : Nat
  annotations : List TaskAnn
  https_location : String
  filename : String
  subject_type : String
  subject_ids : Nat
  frame_number : Option Int
  user_name : String
  movie_id : Option Int
deriving Repr, DecidableEq

/-- One entry of `rows_list` (the dict built at lines 675-696). -/
structure FlatFrameAnn where
  classification_id : Nat
  x : Option Int
  y : Option Int
  w : Option Int
  h : Option Int
  label : Option String
deriving Repr, DecidableEq

/-- Lines 670-699: the per-classification flattening loop.  For each task
entry tagged "T0": an empty `value` appends one row labelled "empty" with
null geometry; otherwise the loop of line 687 rebinds `choice_i` once per
shape, and the `rows_list.append(choice_i)` of line 699 sits at the level
of the `if`/`else` — outside the loop — so exactly one row, the one built
from the *last* shape, is appended per task entry. -/
def flattenFrameAnns (cid : Nat) (anns : List TaskAnn) : List FlatFrameAnn :=
  anns.flatMap (fun a =>
    if a.task = "T0" then
      if a.value = [] then
        [⟨cid, none, none, none, none, some "empty"⟩]
      else
        match a.value.getLast? with
        | some i => [⟨cid, i.x, i.y, i.width, i.height, i.tool_label⟩]
        | none => []
    else [])

/-- Lines 665-699: `rows_list` accumulated over the whole input dataframe. -/
def processFramesFlat (df : List FrameSub) : List FlatFrameAnn :=
  df.flatMap (fun r => flattenFrameAnns r.classification_id r.annotations)

/-- A row of `process_frames`'s output dataframe (after the left merge of
line 708 and the column selection of line 717): the flattened annotation
plus the classification's own metadata, null when the merge found no
partner. -/
structure FrameRow where
  classification_id : Nat
  x : Option Int
  y : Option Int
  w : Option Int
  h : Option Int
  label : Option String
  https_location : Option String
  filename : Option String
  subject_type : Option String
  subject_ids : Option Nat
  frame_number : Option Int
  user_name : Option String
  movie_id : Option Int
deriving Repr, DecidableEq

/-- `process_frames` (lines 649-732): flatten, left-merge with the input on
`classification_id`, select the final columns. -/
def processFrames (df : List FrameSub) : List FrameRow :=
  leftMergeBy (fun f r => f.classification_id == r.classification_id)
    (fun f or => ⟨f.classification_id, f.x, f.y, f.w, f.h, f.label,
      or.map (·.https_location), or.map (·.filename), or.map (·.subject_type),
      or.map (·.subject_ids), or.bind (·.frame_number), or.map (·.user_name),
      or.bind (·.movie_id)⟩)
    (processFramesFlat df) df

/-- Projections of a `FrameRow` for `aggregrate_labels`. -/
def frameProj : LabelProj FrameRow :=
  ⟨(·.subject_ids), (·.classification_id), (·.label)⟩

/-- A task entry with two drawn shapes (the C2 failing input). -/
def annC2 : TaskAnn :=
  ⟨"T0", [⟨some 10, some 20, some 30, some 40, some "fish"⟩,
          ⟨some 50, some 60, some 70, some 80, some "shark"⟩]⟩

/-! ## `process_clips` (t8_utils.py lines 574-631) and the clip reducer

The per-project extraction step (`process_clips_koster`,
`process_clips_spyfish`; files `kso_utils/koster_utils.py` and
`kso_utils/spyfish_utils.py`, which are not among the provided sources) is
modelled from the spec: "Clip mode: delegate to a project-specific
extraction function (pluggable ...) that yields zero or more
(label, first-seen, count) tuples per classification" (spec 4.1), so
`processClips` is parameterised by that extraction capability. -/

/-- Insert into a sorted list of rationals. -/
def insertSortedQ (x : ℚ) : List ℚ → List ℚ
  | [] => [x]
  | y :: ys => if x ≤ y then x :: y :: ys else y :: insertSortedQ x ys

/-- Insertion sort on rationals. -/
def sortQ : List ℚ → List ℚ
  | [] => []
  | x :: xs => insertSortedQ x (sortQ xs)

/-- The pandas `Series.median`: sort, take the middle element (odd length)
or the mean of the two middle elements (even length).  An empty series has
median `NaN` in pandas; the reducer only applies it to nonempty groups, and
the model returns 0 there. -/
def medianQ (l : List ℚ) : ℚ :=
  let s := sortQ l
  if l.length = 0 then 0
  else if l.length % 2 = 1 then s.getD (l.length / 2) 0
  else (s.getD (l.length / 2 - 1) 0 + s.getD (l.length / 2) 0) / 2

/-- One raw clip-mode classification row handed to `process_clips`; the
annotation payload `π` is opaque to the core and only read by the
project-specific extraction function. -/
structure ClipSub (π : Type) where
  classification_id : Nat
  annotations : π
  https_location : String
  subject_type : String
  subject_ids : Nat
  user_name : String

/-- A row of `process_clips`'s output (after the left merge of line 611 and
the column selection of line 619). -/
structure ClipRow where
  classification_id : Nat
  label : String
  how_many : ℚ
  first_seen : ℚ
  https_location : Option String
  subject_type : Option String
  subject_ids : Option Nat
deriving Repr, DecidableEq

/-- `process_clips` (lines 574-631): the extraction function appends
(label, first_seen, how_many) tuples per classification; the rows are then
left-merged with the input dataframe on `classification_id` and the final
columns selected. -/
def processClips {π : Type} (extract : π → List (String × ℚ × ℚ)) (df : List (ClipSub π)) :
    List ClipRow :=
  let flat : List (Nat × String × ℚ × ℚ) := df.flatMap (fun r =>
    (extract r.annotations).map (fun t => (r.classification_id, t.1, t.2.1, t.2.2)))
  leftMergeBy (fun f r => f.1 == r.classification_id)
    (fun f or => ⟨f.1, f.2.1, f.2.2.2, f.2.2.1,
      or.map (·.https_location), or.map (·.subject_type), or.map (·.subject_ids)⟩)
    flat df

/-- Projections of a `ClipRow` for `aggregrate_labels`. -/
def clipProj : LabelProj ClipRow :=
  ⟨(·.subject_ids), (·.classification_id), fun r => some r.label⟩

/-- A group key of the clip reducer (line 557):
`(subject_ids, https_location, subject_type, label)`. -/
structure ClipKey where
  subject_ids : Nat
  https_location : String
  subject_type : String
  label : String
deriving Repr, DecidableEq

/-- A reduced clip row (one per group). -/
structure ClipReduced where
  subject_ids : Nat
  https_location : String
  subject_type : String
  label : String
  how_many : ℚ
  first_seen : ℚ
deriving Repr, DecidableEq

/-- The group key of an aggregated clip row; `none` when any key column is
null (pandas `groupby` drops such rows from every group). -/
def clipKeyOf (m : Mutated ClipRow) : Option ClipKey :=
  match m.base.subject_ids, m.base.https_location, m.base.subject_type with
  | some s, some h, some t => some ⟨s, h, t, m.base.label⟩
  | _, _, _ => none

/-- The rows of one group. -/
def clipGroup (df : List (Mutated ClipRow)) (k : ClipKey) : List (Mutated ClipRow) :=
  df.filter (fun m => decide (clipKeyOf m = some k))

/-- Lines 556-558: group the agreement-filtered clip rows by
`(subject_ids, https_location, subject_type, label)` and emit one row per
group with the medians of `how_many` and `first_seen`. -/
def clipReduce (df : List (Mutated ClipRow)) : List ClipReduced :=
  ((df.filterMap clipKeyOf).dedup).map (fun k =>
    ⟨k.subject_ids, k.https_location, k.subject_type, k.label,
      medianQ ((clipGroup df k).map (·.base.how_many)),
      medianQ ((clipGroup df k).map (·.base.first_seen))⟩)

/-- The clip branch of `aggregrate_classifications` (lines 543-571): process
the clips, aggregate the labels, reduce per group; the returned raw
dataframe is the mutated flat table merged with the input's `user_name`
column (line 561). -/
def aggClip {π : Type} (extract : π → List (String × ℚ × ℚ)) (df : List (ClipSub π))
    (agg_users : ℚ) (min_users : Int) :
    List ClipReduced × List (Mutated ClipRow × Option String) :=
  let raw := processClips extract df
  (clipReduce (aggregrate_labels clipProj raw agg_users min_users).2,
    leftMergeBy (fun (m : Mutated ClipRow) (r : ClipSub π) =>
        m.base.classification_id == r.classification_id)
      (fun m or => (m, or.map (·.user_name)))
      (aggregrate_labels clipProj raw agg_users min_users).1 df)

/-- Scenario D's agreement-filtered table: four accepted rows for clip
subject 5, label "shark", with `how_many` values 1, 1, 2, 5. -/
def dfC5 : List (Mutated ClipRow) :=
  [⟨⟨70, "shark", 1, 10, some "http://c", some "clip", some 5⟩, some 4, some 4, some 1⟩,
   ⟨⟨71, "shark", 1, 10, some "http://c", some "clip", some 5⟩, some 4, some 4, some 1⟩,
   ⟨⟨72, "shark", 2, 10, some "http://c", some "clip", some 5⟩, some 4, some 4, some 1⟩,
   ⟨⟨73, "shark", 5, 10, some "http://c", some "clip", some 5⟩, some 4, some 4, some 1⟩]

/-- The Scenario D group key. -/
def keyC5 : ClipKey := ⟨5, "http://c", "clip", "shark"⟩

/-! ## `get_classifications` (t8_utils.py lines 286-369): the metadata join

Lines 326-336 query the subjects table (`SELECT id, subject_type,
https_location, ... WHERE subject_type=='frame'`), so a store row always
carries its `subject_type`; `https_location` stays nullable.  Lines 343-364
left-merge the classifications with that store on the subject id, and when
any merged row misses `subject_type` or `https_location`, drop those rows
and report the dropped count (the argument handed to `logging.info` at
line 358).  The returned pair is (kept rows, reported count or `none`). -/

/-- One row of the subjects query (frame variant, lines 328-330). -/
structure SubjectMeta where
  id : Nat
  subject_type : String
  https_location : Option String
  filename : String
  frame_number : Option Int
  movie_id : Option Nat
deriving Repr, DecidableEq

/-- One classification row entering the metadata join. -/
structure ClassifIn where
  classification_id : Nat
  subject_ids : Nat
  user_name : String
deriving Repr, DecidableEq

/-- A classification after the left merge of line 343. -/
structure ClassifJoined where
  base : ClassifIn
  subject_type : Option String
  https_location : Option String
  filename : Option String
  frame_number : Option Int
  movie_id : Option Nat
deriving Repr, DecidableEq

/-- Line 343: `pd.merge(classes_df, subjects_df, how="left", left_on="subject_ids", right_on="id")`. -/
def joinSubjects (cls : List ClassifIn) (store : List SubjectMeta) : List ClassifJoined :=
  leftMergeBy (fun c m => c.subject_ids == m.id)
    (fun c om => ⟨c, om.map (·.subject_type), om.bind (·.https_location),
      om.map (·.filename), om.bind (·.frame_number), om.bind (·.movie_id)⟩)
    cls store

/-- The complement of line 353's `dropna(subset=["subject_type", "https_location"], how='any')`:
a row is kept when both columns are present. -/
def goodRow (m : ClassifJoined) : Bool :=
  !(decide (m.subject_type = none)) && !(decide (m.https_location = none))

/-- Lines 351-364: when any merged row misses its subject metadata, drop
those rows and report the dropped count; otherwise return the merge as is. -/
def get_classifications (cls : List ClassifIn) (store : List SubjectMeta) :
    List ClassifJoined × Option Nat :=
  if (joinSubjects cls store).any (fun m => !(goodRow m)) then
    ((joinSubjects cls store).filter goodRow,
      some ((joinSubjects cls store).length
        - ((joinSubjects cls store).filter goodRow).length))
  else (joinSubjects cls store, none)

/-! ## The frame branch of `aggregrate_classifications` (lines 421-541)

`filter_bboxes` lives in `kso_utils/koster_utils.py`, which is not among
the provided sources, and is modelled from the spec (4.4): pairwise IoU,
connected-components clustering at threshold `eps`, acceptance of a cluster
when the fraction of distinct contributing users reaches `iua` and the
cluster's size fraction reaches `obj`, and a mean representative box per
accepted cluster, returning contributing indices and representative
boxes. -/

/-- A box as (x, y, w, h). -/
structure BBoxQ where
  x : ℚ
  y : ℚ
  w : ℚ
  h : ℚ
deriving Repr, DecidableEq

/-- Overlap length of two segments `[a1, a1+l1]` and `[a2, a2+l2]`. -/
def interLenQ (a1 l1 a2 l2 : ℚ) : ℚ :=
  max 0 (min (a1 + l1) (a2 + l2) - max a1 a2)

/-- Modelled from the spec (glossary): intersection-over-union of two
boxes, intersection area divided by union area. -/
def iouQ (a b : BBoxQ) : ℚ :=
  let i := interLenQ a.x a.w b.x b.w * interLenQ a.y a.h b.y b.h
  let u := a.w * a.h + b.w * b.h - i
  if u = 0 then 0 else i / u

/-- Adjacency of boxes `i` and `j`: IoU at least `eps`. -/
def bboxAdj (boxes : List BBoxQ) (eps : ℚ) (i j : Nat) : Bool :=
  match boxes.get? i, boxes.get? j with
  | some a, some b => decide (eps ≤ iouQ a b)
  | _, _ => false

/-- One step of transitive closure of a vertex set under `adj`. -/
def growOnce (adj : Nat → Nat → Bool) (n : Nat) (s : List Nat) : List Nat :=
  (List.range n).filter (fun j => s.contains j || s.any (fun i => adj i j))

/-- `k` steps of closure. -/
def growN (adj : Nat → Nat → Bool) (n : Nat) : Nat → List Nat → List Nat
  | 0, s => s
  | k + 1, s => growN adj n k (growOnce adj n s)

/-- The connected component of `start` (n closure steps suffice on n
vertices). -/
def componentOf (adj : Nat → Nat → Bool) (n start : Nat) : List Nat :=
  growN adj n n [start]

/-- All components, scanning vertices in index order (the spec's
deterministic, stable-by-original-row-order tie-break). -/
def componentsAux (adj : Nat → Nat → Bool) (n : Nat) : List Nat → List Nat → List (List Nat)
  | [], _ => []
  | i :: rest, seen =>
      if seen.contains i then componentsAux adj n rest seen
      else componentOf adj n i :: componentsAux adj n rest (seen ++ componentOf adj n i)

/-- Modelled from the spec (4.4): cluster the group's boxes by transitive
IoU ≥ `eps`; keep a cluster when its distinct-user fraction reaches `iua`
and its size fraction reaches `obj`; return the indices of contributing
rows and one mean box per accepted cluster. -/
def filter_bboxes (total_users : Nat) (users : List (Option String)) (bboxes : List BBoxQ)
    (obj eps iua : ℚ) : List Nat × List BBoxQ :=
  let n := bboxes.length
  let comps := componentsAux (bboxAdj bboxes eps) n (List.range n) []
  let accepted := comps.filter (fun c =>
    let cu := ((c.filterMap (fun i => (users.get? i).bind id)).dedup).length
    decide (iua ≤ (cu : ℚ) / (total_users : ℚ)) &&
      decide (obj ≤ (c.length : ℚ) / (total_users : ℚ)))
  (accepted.flatMap id,
    accepted.map (fun c =>
      let bs := c.filterMap (fun i => bboxes.get? i)
      ⟨(bs.map (·.x)).sum / (bs.length : ℚ), (bs.map (·.y)).sum / (bs.length : ℚ),
       (bs.map (·.w)).sum / (bs.length : ℚ), (bs.map (·.h)).sum / (bs.length : ℚ)⟩))

/-- Strip leading and trailing whitespace (Python `str.strip()`). -/
def stripSpaces (l : List Char) : List Char :=
  ((l.dropWhile Char.isWhitespace).reverse.dropWhile Char.isWhitespace).reverse

/-- Line 527's label cleaning `x.split("(")[0].strip()`: everything before
the first "(" (for a single-character separator, `split[0]` is the longest
paren-free prefix), stripped of surrounding whitespace. -/
def cleanLabel (s : String) : String :=
  String.mk (stripSpaces (s.toList.takeWhile (fun c => decide (c ≠ '('))))

/-- A row of the 6-column table of line 533
(`[subject_ids, label, x, y, w, h]`, after `drop_duplicates`). -/
structure Row6 where
  subject_ids : Option Nat
  label : Option String
  x : Option ℚ
  y : Option ℚ
  w : Option ℚ
  h : Option ℚ
deriving Repr, DecidableEq

/-- A row of the frame branch's final output (after the merge of
line 536). -/
structure FrameAgg where
  subject_ids : Option Nat
  label : Option String
  x : Option ℚ
  y : Option ℚ
  w : Option ℚ
  h : Option ℚ
  https_location : Option String
  subject_type : Option String
  filename : Option String
deriving Repr, DecidableEq

/-- Line 448: the non-"empty" part of the aggregated table (pandas
`label != "empty"` keeps null labels, hence the negated `some` test). -/
def frameNonempty (agg : List (Mutated FrameRow)) : List (Mutated FrameRow) :=
  agg.filter (fun m => !(decide (m.base.label = some "empty")))

/-- Line 464: group by frame number only when some row has one. -/
def frameUseFrame (ne : List (Mutated FrameRow)) : Bool :=
  !(ne.all (fun m => decide (m.base.frame_number = none)))

/-- Lines 464-469: the group keys (pandas `groupby` drops rows with a null
key from every group); the third component is the `start_frame` (null when
grouping ignores the frame number, line 479). -/
def frameKeys (ne : List (Mutated FrameRow)) : List (String × String × Option Int) :=
  if frameUseFrame ne then
    (ne.filterMap (fun m =>
      match m.base.filename, m.base.label, m.base.frame_number with
      | some f, some l, some fr => some (f, l, some fr)
      | _, _, _ => none)).dedup
  else
    (ne.filterMap (fun m =>
      match m.base.filename, m.base.label with
      | some f, some l => some (f, l, none)
      | _, _ => none)).dedup

/-- The rows of one group (also the rows counted by the `nunique` of lines
472-483). -/
def frameGroup (ne : List (Mutated FrameRow)) (k : String × String × Option Int) :
    List (Mutated FrameRow) :=
  ne.filter (fun m => decide (m.base.filename = some k.1) &&
    decide (m.base.label = some k.2.1) &&
    (if frameUseFrame ne then decide (m.base.frame_number = k.2.2) else true))

/-- Line 491's `np.array([x, y, w, h])` for a row (geometry fields are
present on shape rows; a missing value is read as 0 here). -/
def boxQOf (m : Mutated FrameRow) : BBoxQ :=
  ⟨((m.base.x.getD 0 : Int) : ℚ), ((m.base.y.getD 0 : Int) : ℚ),
   ((m.base.w.getD 0 : Int) : ℚ), ((m.base.h.getD 0 : Int) : ℚ)⟩

/-- Lines 470-510 for one group: total distinct users, the `filter_bboxes`
call, and one new row per (subject id, representative box) pair of the zip
of line 501; line 527's label cleaning is applied to the key's label, which
is the label column of every new row of the group. -/
def newRowsOfKey (ne : List (Mutated FrameRow)) (k : String × String × Option Int)
    (ob ep iu : ℚ) : List Row6 :=
  let g := frameGroup ne k
  let tu := ((g.filterMap (·.base.user_name)).dedup).length
  let fb := filter_bboxes tu (g.map (·.base.user_name)) (g.map boxQOf) ob ep iu
  (((fb.1.filterMap (fun i => (g.get? i).map (·.base.subject_ids))).zip fb.2)).map
    (fun p => ⟨p.1, some (cleanLabel k.2.1), some p.2.x, some p.2.y, some p.2.w, some p.2.h⟩)

/-- Lines 462-527: all consensus rows, labels cleaned. -/
def frameNewRows (ne : List (Mutated FrameRow)) (ob ep iu : ℚ) : List Row6 :=
  (frameKeys ne).flatMap (fun k => newRowsOfKey ne k ob ep iu)

/-- Lines 436-445: the rows aggregated as "empty", with their (null)
geometry, selected down to the 6 columns. -/
def frameEmpties (agg : List (Mutated FrameRow)) : List Row6 :=
  (agg.filter (fun m => decide (m.base.label = some "empty"))).map
    (fun m => ⟨m.base.subject_ids, m.base.label,
      m.base.x.map (fun v => (v : ℚ)), m.base.y.map (fun v => (v : ℚ)),
      m.base.w.map (fun v => (v : ℚ)), m.base.h.map (fun v => (v : ℚ))⟩)

/-- Line 538: the deduplicated
`[subject_ids, https_location, subject_type, filename]` table of the raw
(flattened) classifications. -/
def frameMeta (raw : List FrameRow) :
    List (Option Nat × Option String × Option String × Option String) :=
  (raw.map (fun r => (r.subject_ids, r.https_location, r.subject_type, r.filename))).dedup

/-- Lines 530-533: concatenate consensus rows and empty rows, deduplicate. -/
def frameTable (agg : List (Mutated FrameRow)) (ob ep iu : ℚ) : List Row6 :=
  (frameNewRows (frameNonempty agg) ob ep iu ++ frameEmpties agg).dedup

/-- Lines 536-541: left-merge the 6-column table with the raw metadata on
`subject_ids`. -/
def frameFinal (raw : List FrameRow) (agg : List (Mutated FrameRow)) (ob ep iu : ℚ) :
    List FrameAgg :=
  leftMergeBy (fun (r6 : Row6) t => r6.subject_ids == t.1)
    (fun r6 ot => ⟨r6.subject_ids, r6.label, r6.x, r6.y, r6.w, r6.h,
      ot.bind (·.2.1), ot.bind (·.2.2.1), ot.bind (·.2.2.2)⟩)
    (frameTable agg ob ep iu) (frameMeta raw)

/-- The frame branch of `aggregrate_classifications` (lines 421-541),
returning (aggregated table, raw flattened table with the merged
`user_name` of line 561). -/
def aggFrame (df : List FrameSub) (agg_users : ℚ) (min_users : Int)
    (agg_obj agg_iou agg_iua : ℚ) :
    List FrameAgg × List (Mutated FrameRow × Option String) :=
  (frameFinal (processFrames df)
      ((aggregrate_labels frameProj (processFrames df) agg_users min_users).2)
      agg_obj agg_iou agg_iua,
    leftMergeBy (fun (m : Mutated FrameRow) (r : FrameSub) =>
        m.base.classification_id == r.classification_id)
      (fun m or => (m, or.map (·.user_name)))
      ((aggregrate_labels frameProj (processFrames df) agg_users min_users).1) df)

/-- A single frame classification whose T0 entry is empty (for the C10
witness). -/
def dfC10 : List FrameSub :=
  [⟨1, [⟨"T0", []⟩], "http://a", "f1", "frame", 7, some 3, "alice", some 2⟩]

/-- A two-classification batch: subject 10 is in the store, subject 11 is not. -/
def clsC6 : List ClassifIn := [⟨1, 10, "alice"⟩, ⟨2, 11, "bob"⟩]

/-- A store holding only subject 10. -/
def storeC6 : List SubjectMeta := [⟨10, "frame", some "http://x", "f1", some 0, some 3⟩]

/-! ## Helper lemmas -/

/-- Unpacking membership in a left merge: an output row comes from a left
row, either unmatched or combined with a matching right row. -/
theorem mem_leftMergeBy {α β γ : Type} {matchR : α → β → Bool} {combine : α → Option β → γ}
    {lefts : List α} {rights : List β} {o : γ}
    (ho : o ∈ leftMergeBy matchR combine lefts rights) :
    ∃ a ∈ lefts, o = combine a none ∨
      ∃ b ∈ rights, matchR a b = true ∧ o = combine a (some b) := by
  rcases List.mem_flatMap.mp ho with ⟨a, ha, hoa⟩
  refine ⟨a, ha, ?_⟩
  cases hfil : rights.filter (matchR a) with
  | nil => rw [hfil] at hoa; left; simpa using hoa
  | cons b bs =>
      rw [hfil] at hoa
      right
      rcases List.mem_map.mp hoa with ⟨b', hb', rfl⟩
      have hb'' : b' ∈ rights.filter (matchR a) := by rw [hfil]; exact hb'
      rcases List.mem_filter.mp hb'' with ⟨hbr, hm⟩
      exact ⟨b', hbr, hm, rfl⟩

/-- A matched pair appears in the left merge. -/
theorem combine_some_mem_leftMergeBy {α β γ : Type} {matchR : α → β → Bool}
    {combine : α → Option β → γ} {lefts : List α} {rights : List β} {a : α} {b : β}
    (ha : a ∈ lefts) (hb : b ∈ rights) (hm : matchR a b = true) :
    combine a (some b) ∈ leftMergeBy matchR combine lefts rights := by
  apply List.mem_flatMap.mpr
  refine ⟨a, ha, ?_⟩
  have hbf : b ∈ rights.filter (matchR a) := List.mem_filter.mpr ⟨hb, hm⟩
  cases hfil : rights.filter (matchR a) with
  | nil => rw [hfil] at hbf; exact absurd hbf (List.not_mem_nil b)
  | cons c cs =>
      rw [hfil] at hbf
      exact List.mem_map.mpr ⟨b, hbf, rfl⟩

/-- When every left row has at most one matching right row, the left merge
has exactly one output row per left row. -/
theorem leftMergeBy_length_of_unique {α β γ : Type} {matchR : α → β → Bool}
    {combine : α → Option β → γ} {lefts : List α} {rights : List β}
    (h : ∀ a, (rights.filter (matchR a)).length ≤ 1) :
    (leftMergeBy matchR combine lefts rights).length = lefts.length := by
  induction lefts with
  | nil => rfl
  | cons a t ih =>
      have hcons : leftMergeBy matchR combine (a :: t) rights
          = (match rights.filter (matchR a) with
             | [] => [combine a none]
             | bs => bs.map (fun b => combine a (some b)))
            ++ leftMergeBy matchR combine t rights := by
        simp only [leftMergeBy, List.flatMap_cons]
        rfl
      have hone : (match rights.filter (matchR a) with
          | [] => [combine a none]
          | bs => bs.map (fun b => combine a (some b))).length = 1 := by
        cases hfil : rights.filter (matchR a) with
        | nil => rfl
        | cons b bs =>
            have := h a
            rw [hfil] at this
            simp only [List.length_cons] at this
            have hbs : bs = [] := List.eq_nil_of_length_eq_zero (by omega)
            subst hbs
            rfl
      rw [hcons, List.length_append, hone, ih]
      simp [Nat.add_comm]

/-- Filtering a list by equality with a key yields at most one row when the
keys are pairwise distinct. -/
theorem length_filter_key_le_one {α : Type} (f : α → Nat) (l : List α)
    (h : (l.map f).Nodup) (k : Nat) :
    (l.filter (fun a => k == f a)).length ≤ 1 := by
  induction l with
  | nil => simp
  | cons a t ih =>
      simp only [List.map_cons, List.nodup_cons] at h
      simp only [List.filter_cons]
      by_cases hk : (k == f a) = true
      · have hfa : k = f a := eq_of_beq hk
        have hnil : t.filter (fun b => k == f b) = [] := by
          apply List.filter_eq_nil_iff.mpr
          intro b hb hpb
          exact h.1 (hfa ▸ (eq_of_beq hpb) ▸ List.mem_map_of_mem f hb)
        simp [hk, hnil]
      · simp only [hk, Bool.false_eq_true, if_false]
        exact le_trans (ih h.2) (le_refl 1)

/-- Filtering with a weaker predicate retains at least as many rows. -/
theorem length_filter_mono_of_imp {α : Type} {p q : α → Bool} (l : List α)
    (h : ∀ a ∈ l, p a = true → q a = true) :
    (l.filter p).length ≤ (l.filter q).length := by
  induction l with
  | nil => simp
  | cons a t ih =>
    have ht : (t.filter p).length ≤ (t.filter q).length :=
      ih (fun b hb hpb => h b (List.mem_cons_of_mem a hb) hpb)
    by_cases hp : p a = true
    · have hq : q a = true := h a (List.mem_cons_self a t) hp
      simp only [List.filter_cons, hp, hq, if_true, List.length_cons]
      omega
    · simp only [List.filter_cons, hp, if_false, Bool.false_eq_true]
      by_cases hq : q a = true
      · simp only [hq, if_true, List.length_cons]; omega
      · simp only [hq, if_false, Bool.false_eq_true]; exact ht

/-- Every row of the mutated dataframe wraps a row of the input and carries
a computed `n_users`. -/
theorem mem_mutInit {α : Type} (P : LabelProj α) (df : List α) (m : Mutated α)
    (hm : m ∈ mutInit P df) :
    m.base ∈ df ∧ m.n_users = (P.subj m.base).map (nUsersOf P df) ∧
      m.class_n = none ∧ m.class_prop = none := by
  rcases List.mem_map.mp hm with ⟨r, hr, rfl⟩
  exact ⟨hr, rfl, rfl, rfl⟩

/-! ## C1: what the participation filter counts

The spec says the participation filter counts distinct *user identifiers*
per subject; the code of line 386 counts distinct *classification ids*
(`groupby("subject_ids")["classification_id"].transform("nunique")`),
despite its own comment "Calculate the number of users that classified each
subject" and the column name `n_users`. -/

/-- C1: on `dfC1`, the single user "alice" submitted two classifications of
subject 1, so the distinct-user count is 1; with `min_users = 2` the claim
requires both rows to be dropped, but the code's participation filter
(which counts distinct classification ids, here 2) retains both rows. -/
theorem c1_filter_counts_classifications_not_users :
    distinctUsersOf dfC1 1 = 1 ∧ ¬ ((2 : Int) ≤ ((distinctUsersOf dfC1 1 : Nat) : Int)) ∧
      (partStage classProj dfC1 2).map (·.base) = dfC1 := by decide

/-! ## C2: frame-mode flattening of one classification

The "empty" half of the claim matches the code, but for an entry carrying
drawn shapes the code appends a single row: the `rows_list.append(choice_i)`
of line 699 is indented at the level of the `if ann_i["value"] == []`, i.e.
outside the `for i in ann_i["value"]` loop of line 687, so only the last
shape's `choice_i` survives — contradicting the comment "Select each
species annotated and flatten the relevant answers". -/

/-- C2: evaluating the flattener of `process_frames`.  A "T0" entry with no
shapes yields exactly one row labelled "empty" with null box fields; the
entry `annC2` with two drawn shapes yields exactly one row, built from the
second (last) shape — not one row per shape. -/
theorem c2_flattener_emits_only_last_shape :
    flattenFrameAnns 1 [⟨"T0", []⟩] = [⟨1, none, none, none, none, some "empty"⟩] ∧
      flattenFrameAnns 1 [annC2]
        = [⟨1, some 50, some 60, some 70, some 80, some "shark"⟩] := by decide

/-! ## C4: no configuration validation at entry

The spec requires invalid configurations (threshold outside `[0,1]`,
`min_users < 1`) to be rejected at call entry.  `aggregrate_labels` and
`aggregrrate_classifications` perform no such check: the parameters are
used as given, and `min_users ≤ 0` silently passes every subject. -/

/-- C4 counterexample: calling the aggregation with the invalid configuration
`min_users = 0` is not rejected — it returns the fully unfiltered table
(every row of every subject survives both filters). -/
theorem c4_counterexample_no_rejection :
    (aggregrate_labels classProj dfC4 (0 : ℚ) (0 : Int)).2.map (·.base) = dfC4 := by
  simp +decide only [aggregrate_labels, aggStage, cpStage, cnStage, partStage, mutInit,
    partPred, classNOf, aggPred, nUsersOf, classProj, dfC4, List.filter, List.map,
    List.dedup, List.pwFilter, List.length]
  norm_num

/-- C4 (amended): `aggregrate_labels` performs no entry validation; whenever
`min_users ≤ 0`, the participation filter of line 391 retains every row of
the input dataframe. -/
theorem c4_min_users_nonpos_passes_all (df : List ClassRow) (min_users : Int)
    (h : min_users ≤ 0) :
    partStage classProj df min_users = mutInit classProj df := by
  unfold partStage
  apply List.filter_eq_self.mpr
  intro m hm
  rcases mem_mutInit classProj df m hm with ⟨-, hn, -, -⟩
  simp only [classProj, Option.map_some'] at hn
  simp only [partPred, hn]
  have : (0 : Int) ≤ (nUsersOf classProj df m.base.subject_ids : Int) := Int.ofNat_nonneg _
  exact decide_eq_true (le_trans h this)

/-- Witness for C4: the amended theorem applied at `dfC4` with `min_users = 0`. -/
theorem c4_min_users_nonpos_passes_all_witness :
    partStage classProj dfC4 0 = mutInit classProj dfC4 :=
  c4_min_users_nonpos_passes_all dfC4 0 (by decide)

/-! ## C3: the agreement ratio

`class_n` (line 394) counts *rows* per (subject, label), while the
denominator `n_users` (line 386) counts *distinct classification ids* per
subject; when one classification contributes several rows with the same
label, the ratio exceeds 1, so the spec's invariant fails as stated.  It
holds under the extra assumption that a classification contributes at most
one row per label to a subject. -/

/-- C3 counterexample: on `dfC3` (one classification flattened into two rows
with the same subject and label), the computed agreement ratio is 2, outside
`[0,1]`. -/
theorem c3_counterexample_ratio_above_one :
    ∃ m ∈ (aggregrate_labels classProj dfC3 (0 : ℚ) (1 : Int)).2,
      m.class_prop = some 2 ∧ ¬ ((2 : ℚ) ≤ 1) := by
  have e : (aggregrate_labels classProj dfC3 (0 : ℚ) (1 : Int)).2
      = List.filter (aggPred 0)
          [⟨⟨10, 1, "alice", "fish"⟩, some 1, some 2, some (((2 : Nat) : ℚ) / ((1 : Nat) : ℚ))⟩,
           ⟨⟨10, 1, "alice", "fish"⟩, some 1, some 2, some (((2 : Nat) : ℚ) / ((1 : Nat) : ℚ))⟩] :=
    rfl
  rw [show (aggregrate_labels classProj dfC3 (0 : ℚ) (1 : Int)).2
      = List.filter (aggPred 0)
          [⟨⟨10, 1, "alice", "fish"⟩, some 1, some 2, some 2⟩,
           ⟨⟨10, 1, "alice", "fish"⟩, some 1, some 2, some 2⟩] from by
    rw [e, show ((2 : Nat) : ℚ) / ((1 : Nat) : ℚ) = 2 from by norm_num]]
  decide

/-- The per-(subject, label) row count is bounded by the per-subject
distinct-classification count, provided no classification contributes two
rows with the same label to the same subject. -/
theorem classN_le_nUsers (df : List ClassRow) (mu : Int) (r : ClassRow)
    (hdf : df.Pairwise (fun a b => a.subject_ids = b.subject_ids → a.label = b.label →
      a.classification_id ≠ b.classification_id)) :
    ((partStage classProj df mu).filter (fun m2 =>
        decide (m2.base.subject_ids = r.subject_ids) && decide (m2.base.label = r.label))).length
      ≤ nUsersOf classProj df r.subject_ids := by
  classical
  set q : Mutated ClassRow → Bool := fun m2 =>
    decide (m2.base.subject_ids = r.subject_ids) && decide (m2.base.label = r.label) with hq
  set init : ClassRow → Mutated ClassRow := fun x =>
    ⟨x, (classProj.subj x).map (nUsersOf classProj df), none, none⟩ with hinit
  set pr : ClassRow → Bool := fun x => q (init x) && partPred mu (init x) with hpr
  have hfl : partStage classProj df mu = (df.map init).filter (partPred mu) := rfl
  have h1 : (partStage classProj df mu).filter q = (df.filter pr).map init := by
    rw [hfl, List.filter_map, List.filter_map, List.filter_filter]
    rfl
  have hlen : ((partStage classProj df mu).filter q).length = (df.filter pr).length := by
    rw [h1, List.length_map]
  rw [hlen]
  have hmem : ∀ a ∈ df.filter pr, a.subject_ids = r.subject_ids ∧ a.label = r.label := by
    intro a ha
    rcases List.mem_filter.mp ha with ⟨-, hpa⟩
    rw [hpr] at hpa
    simp only [Bool.and_eq_true] at hpa
    have hqa := hpa.1
    rw [hq] at hqa
    simp only [Bool.and_eq_true, decide_eq_true_eq, hinit] at hqa
    exact hqa
  have hpw : (df.filter pr).Pairwise
      (fun a b => a.classification_id ≠ b.classification_id) := by
    refine (hdf.filter pr).imp_of_mem ?_
    intro a b ha hb hab
    rcases hmem a ha with ⟨has, hal⟩
    rcases hmem b hb with ⟨hbs, hbl⟩
    exact hab (has.trans hbs.symm) (hal.trans hbl.symm)
  have hnodup : ((df.filter pr).map (·.classification_id)).Nodup :=
    List.pairwise_map.mpr hpw
  set C : List Nat := ((df.filter (fun x =>
      decide (classProj.subj x = some r.subject_ids))).map classProj.cid) with hC
  have hsub : ((df.filter pr).map (·.classification_id)) ⊆ C := by
    intro c hc
    rcases List.mem_map.mp hc with ⟨b, hb, rfl⟩
    rcases List.mem_filter.mp hb with ⟨hbdf, -⟩
    rcases hmem b hb with ⟨hbs, -⟩
    rw [hC]
    refine List.mem_map.mpr ⟨b, List.mem_filter.mpr ⟨hbdf, ?_⟩, rfl⟩
    simp [classProj, hbs]
  have hfin : ((df.filter pr).map (·.classification_id)).length ≤ C.dedup.length := by
    calc ((df.filter pr).map (·.classification_id)).length
        = ((df.filter pr).map (·.classification_id)).toFinset.card :=
          (List.toFinset_card_of_nodup hnodup).symm
      _ ≤ C.toFinset.card := by
          apply Finset.card_le_card
          intro x hx
          exact List.mem_toFinset.mpr (hsub (List.mem_toFinset.mp hx))
      _ = C.dedup.length := List.card_toFinset C
  calc (df.filter pr).length
      = ((df.filter pr).map (·.classification_id)).length := (List.length_map _ _).symm
    _ ≤ C.dedup.length := hfin
    _ = nUsersOf classProj df r.subject_ids := rfl

/-- A subject owning a row of the table has at least one classification. -/
theorem one_le_nUsers (df : List ClassRow) (r : ClassRow) (hr : r ∈ df) :
    1 ≤ nUsersOf classProj df r.subject_ids := by
  have hmem : r.classification_id ∈
      ((df.filter (fun x => decide (classProj.subj x = some r.subject_ids))).map classProj.cid) :=
    List.mem_map.mpr ⟨r, List.mem_filter.mpr ⟨hr, by simp [classProj]⟩, rfl⟩
  have : r.classification_id ∈
      ((df.filter (fun x =>
        decide (classProj.subj x = some r.subject_ids))).map classProj.cid).dedup :=
    List.mem_dedup.mpr hmem
  exact List.length_pos.mpr (List.ne_nil_of_mem this)

/-- C3 (amended): if no classification contributes two rows with the same
label to the same subject, every agreement ratio computed at line 399 lies
in `[0,1]`; the per-subject count is always a non-negative integer. -/
theorem c3_ratio_unit_interval (df : List ClassRow) (u : ℚ) (mu : Int)
    (hdf : df.Pairwise (fun a b => a.subject_ids = b.subject_ids → a.label = b.label →
      a.classification_id ≠ b.classification_id)) :
    ∀ m ∈ (aggregrate_labels classProj df u mu).2,
      (∃ n : Nat, m.n_users = some n ∧ 0 ≤ (n : Int)) ∧
        ∀ p : ℚ, m.class_prop = some p → 0 ≤ p ∧ p ≤ 1 := by
  intro m hm
  have hm1 : m ∈ cpStage classProj df mu := (List.mem_filter.mp hm).1
  rcases List.mem_map.mp hm1 with ⟨m1, hm1', rfl⟩
  rcases List.mem_map.mp hm1' with ⟨m0, hm0, rfl⟩
  have hm0' : m0 ∈ mutInit classProj df := (List.mem_filter.mp hm0).1
  rcases List.mem_map.mp hm0' with ⟨r, hr, rfl⟩
  constructor
  · exact ⟨nUsersOf classProj df r.subject_ids, rfl, Int.ofNat_nonneg _⟩
  · intro p hp
    dsimp only at hp
    simp only [classProj, Option.map_some', classNOf, Option.some_bind, Option.pure_def,
      Option.bind_eq_bind, Option.some.injEq] at hp
    rw [← hp]
    constructor
    · exact div_nonneg (Nat.cast_nonneg _) (Nat.cast_nonneg _)
    · refine div_le_one_of_le₀ (Nat.cast_le.mpr ?_) (Nat.cast_nonneg _)
      exact classN_le_nUsers df mu r hdf

/-- Witness for C3: the amended theorem applied at `dfC1` (two distinct
classifications of subject 1, both labelled "fish"), where the computed
ratio is 2/2. -/
theorem c3_ratio_unit_interval_witness :
    0 ≤ ((2 : Nat) : ℚ) / ((2 : Nat) : ℚ) ∧ ((2 : Nat) : ℚ) / ((2 : Nat) : ℚ) ≤ 1 := by
  have e : cpStage classProj dfC1 1
      = [⟨⟨100, 1, "alice", "fish"⟩, some 2, some 2, some (((2 : Nat) : ℚ) / ((2 : Nat) : ℚ))⟩,
         ⟨⟨101, 1, "alice", "fish"⟩, some 2, some 2, some (((2 : Nat) : ℚ) / ((2 : Nat) : ℚ))⟩] :=
    rfl
  have hmem : (⟨⟨100, 1, "alice", "fish"⟩, some 2, some 2,
      some (((2 : Nat) : ℚ) / ((2 : Nat) : ℚ))⟩ : Mutated ClassRow)
      ∈ (aggregrate_labels classProj dfC1 (0 : ℚ) (1 : Int)).2 := by
    refine List.mem_filter.mpr ⟨?_, ?_⟩
    · rw [show (cpStage classProj dfC1 1 : List (Mutated ClassRow))
        = [⟨⟨100, 1, "alice", "fish"⟩, some 2, some 2, some (((2 : Nat) : ℚ) / ((2 : Nat) : ℚ))⟩,
           ⟨⟨101, 1, "alice", "fish"⟩, some 2, some 2,
             some (((2 : Nat) : ℚ) / ((2 : Nat) : ℚ))⟩] from e]
      exact List.mem_cons_self _ _
    · exact decide_eq_true (by norm_num :
        (0 : ℚ) ≤ ((2 : Nat) : ℚ) / ((2 : Nat) : ℚ))
  exact ((c3_ratio_unit_interval dfC1 0 1 (by decide)) _ hmem).2 _ rfl

/-! ## C5: the clip reducer -/

/-- C5: the clip reducer of lines 556-558 emits exactly one row per distinct
`(subject id, media location, subject type, label)` group of its input
(keys in bijection with the deduplicated present keys, no duplicates), the
`how_many` and `first_seen` of each output row are the medians of those
fields across the group's rows, and the median of [1,1,2,5] is 1.5. -/
theorem c5_clip_reducer_medians (df : List (Mutated ClipRow)) :
    ((clipReduce df).map (fun r =>
        (⟨r.subject_ids, r.https_location, r.subject_type, r.label⟩ : ClipKey))
      = (df.filterMap clipKeyOf).dedup ∧
    ((clipReduce df).map (fun r =>
        (⟨r.subject_ids, r.https_location, r.subject_type, r.label⟩ : ClipKey))).Nodup) ∧
    (∀ r ∈ clipReduce df,
      r.how_many = medianQ ((clipGroup df
        ⟨r.subject_ids, r.https_location, r.subject_type, r.label⟩).map (·.base.how_many)) ∧
      r.first_seen = medianQ ((clipGroup df
        ⟨r.subject_ids, r.https_location, r.subject_type, r.label⟩).map (·.base.first_seen))) ∧
    medianQ [1, 1, 2, 5] = 3 / 2 := by
  have hmap : (clipReduce df).map (fun r =>
      (⟨r.subject_ids, r.https_location, r.subject_type, r.label⟩ : ClipKey))
      = (df.filterMap clipKeyOf).dedup := by
    rw [clipReduce, List.map_map]
    exact List.map_id'' (fun k => rfl) _
  refine ⟨⟨hmap, ?_⟩, ?_, ?_⟩
  · rw [hmap]; exact List.nodup_dedup _
  · intro r hr
    rcases List.mem_map.mp hr with ⟨k, hk, rfl⟩
    exact ⟨rfl, rfl⟩
  · norm_num [medianQ, sortQ, insertSortedQ]

/-- Witness for C5: the reducer applied to Scenario D's table `dfC5`
(clip subject 5, label "shark", `how_many` values [1,1,2,5]). -/
theorem c5_clip_reducer_medians_witness :
    medianQ [1, 1, 2, 5] = 3 / 2 ∧
      (⟨5, "http://c", "clip", "shark",
        medianQ ((clipGroup dfC5 keyC5).map (·.base.how_many)),
        medianQ ((clipGroup dfC5 keyC5).map (·.base.first_seen))⟩ : ClipReduced).how_many
        = medianQ ((clipGroup dfC5 keyC5).map (·.base.how_many)) := by
  have hm : (⟨5, "http://c", "clip", "shark",
      medianQ ((clipGroup dfC5 keyC5).map (·.base.how_many)),
      medianQ ((clipGroup dfC5 keyC5).map (·.base.first_seen))⟩ : ClipReduced)
      ∈ clipReduce dfC5 := by
    rw [show clipReduce dfC5
        = [⟨5, "http://c", "clip", "shark",
            medianQ ((clipGroup dfC5 keyC5).map (·.base.how_many)),
            medianQ ((clipGroup dfC5 keyC5).map (·.base.first_seen))⟩] from rfl]
    exact List.mem_cons_self _ _
  exact ⟨(c5_clip_reducer_medians dfC5).2.2,
    ((c5_clip_reducer_medians dfC5).2.1 _ hm).1⟩

/-! ## C6: exclusion of classifications with missing subject metadata -/

/-- C6: under the database invariant that subject ids are unique in the
store, (1) every returned classification's subject id resolves in the
store — so a classification referencing an absent subject is excluded;
(2) the exclusion is non-fatal: every classification whose subject is in
the store with its media location present survives; (3) the returned rows
plus the reported excluded count (0 when no report) account for the whole
batch, i.e. the reported count is exactly the number excluded. -/
theorem c6_missing_subjects_excluded (cls : List ClassifIn) (store : List SubjectMeta)
    (h : (store.map (·.id)).Nodup) :
    (∀ o ∈ (get_classifications cls store).1, ∃ m ∈ store, m.id = o.base.subject_ids) ∧
    (∀ c ∈ cls, (∃ m ∈ store, m.id = c.subject_ids ∧ m.https_location ≠ none) →
        ∃ o ∈ (get_classifications cls store).1, o.base = c) ∧
    ((get_classifications cls store).1.length + ((get_classifications cls store).2.getD 0)
        = cls.length) := by
  classical
  have hmergedlen : (joinSubjects cls store).length = cls.length := by
    apply leftMergeBy_length_of_unique
    intro a
    exact length_filter_key_le_one (·.id) store h a.subject_ids
  have hmemmeta : ∀ o ∈ joinSubjects cls store, o.https_location ≠ none →
      ∃ m ∈ store, m.id = o.base.subject_ids := by
    intro o ho hloc
    rcases mem_leftMergeBy ho with ⟨a, ha, hcase⟩
    rcases hcase with hnone | ⟨b, hb, hm, rfl⟩
    · rw [hnone] at hloc
      exact absurd rfl hloc
    · exact ⟨b, hb, (eq_of_beq hm).symm⟩
  refine ⟨?_, ?_, ?_⟩
  · intro o ho
    unfold get_classifications at ho
    by_cases hany : (joinSubjects cls store).any (fun m => !(goodRow m)) = true
    · rw [if_pos hany] at ho
      dsimp only at ho
      rcases List.mem_filter.mp ho with ⟨homem, hogood⟩
      simp only [goodRow, Bool.and_eq_true, Bool.not_eq_true', decide_eq_false_iff_not]
        at hogood
      exact hmemmeta o homem hogood.2
    · rw [if_neg hany] at ho
      dsimp only at ho
      have hall : ∀ x ∈ joinSubjects cls store, goodRow x = true := by
        intro x hx
        by_contra hbx
        exact hany (List.any_eq_true.mpr ⟨x, hx, by
          rw [Bool.eq_false_iff.mpr hbx]; rfl⟩)
      have hgood := hall o ho
      simp only [goodRow, Bool.and_eq_true, Bool.not_eq_true', decide_eq_false_iff_not]
        at hgood
      exact hmemmeta o ho hgood.2
  · rintro c hc ⟨m, hmst, hmid, hmloc⟩
    have hmatch : (c.subject_ids == m.id) = true := by simp [hmid]
    have hmem : (⟨c, some m.subject_type, m.https_location, some m.filename,
        m.frame_number, m.movie_id⟩ : ClassifJoined) ∈ joinSubjects cls store := by
      have := @combine_some_mem_leftMergeBy ClassifIn SubjectMeta ClassifJoined
        (fun c m => c.subject_ids == m.id)
        (fun c om => (⟨c, om.map (·.subject_type), om.bind (·.https_location),
          om.map (·.filename), om.bind (·.frame_number), om.bind (·.movie_id)⟩ : ClassifJoined))
        cls store c m hc hmst hmatch
      simpa using this
    have hgood : goodRow (⟨c, some m.subject_type, m.https_location, some m.filename,
        m.frame_number, m.movie_id⟩ : ClassifJoined) = true := by
      simp only [goodRow, Bool.and_eq_true, Bool.not_eq_true', decide_eq_false_iff_not]
      exact ⟨by simp, hmloc⟩
    refine ⟨⟨c, some m.subject_type, m.https_location, some m.filename,
        m.frame_number, m.movie_id⟩, ?_, rfl⟩
    unfold get_classifications
    by_cases hany : (joinSubjects cls store).any (fun m => !(goodRow m)) = true
    · rw [if_pos hany]
      exact List.mem_filter.mpr ⟨hmem, hgood⟩
    · rw [if_neg hany]
      exact hmem
  · unfold get_classifications
    by_cases hany : (joinSubjects cls store).any (fun m => !(goodRow m)) = true
    · rw [if_pos hany]
      dsimp only
      simp only [Option.getD_some]
      have hle : ((joinSubjects cls store).filter goodRow).length
          ≤ (joinSubjects cls store).length := List.length_filter_le _ _
      omega
    · rw [if_neg hany]
      dsimp only
      simp only [Option.getD_none]
      omega

/-- Witness for C6: the theorem applied at `clsC6`/`storeC6` (subject 11
absent): the batch is accounted for (1 kept + 1 reported = 2), and the kept
row's subject resolves in the store. -/
theorem c6_missing_subjects_excluded_witness :
    ((get_classifications clsC6 storeC6).1.length
        + ((get_classifications clsC6 storeC6).2.getD 0) = clsC6.length) ∧
      (∃ m ∈ storeC6, m.id =
        (⟨⟨1, 10, "alice"⟩, some "frame", some "http://x", some "f1", some 0, some 3⟩ :
          ClassifJoined).base.subject_ids) :=
  ⟨(c6_missing_subjects_excluded clsC6 storeC6 (by decide)).2.2,
    (c6_missing_subjects_excluded clsC6 storeC6 (by decide)).1 _ (by decide)⟩

/-! ## C7: participation monotonicity -/

/-- C7: with all other parameters fixed, raising `min_users` never increases
the number of rows surviving the participation filter of line 391. -/
theorem c7_participation_monotone (df : List ClassRow) (m1 m2 : Int) (h : m1 ≤ m2) :
    (partStage classProj df m2).length ≤ (partStage classProj df m1).length := by
  unfold partStage
  apply length_filter_mono_of_imp
  intro m _ hp
  unfold partPred at hp ⊢
  cases hn : m.n_users with
  | none => rw [hn] at hp; exact absurd hp (by simp)
  | some n =>
      rw [hn] at hp
      exact decide_eq_true (le_trans h (of_decide_eq_true hp))

/-- Witness for C7: the monotonicity theorem applied at `dfC1`, `m1 = 1`,
`m2 = 2`. -/
theorem c7_participation_monotone_witness :
    (1 : Int) ≤ 2 ∧
      (partStage classProj dfC1 2).length ≤ (partStage classProj dfC1 1).length :=
  ⟨by decide, c7_participation_monotone dfC1 1 2 (by decide)⟩

/-! ## C8: empty input, empty output -/

/-- C8: on an empty classification table, for any parameters and any
project extraction function, both aggregation modes return empty tables
(and, the embedding being total, no error is raised). -/
theorem c8_empty_input_empty_output (u : ℚ) (mu : Int) (ob ep iu : ℚ) {π : Type}
    (extract : π → List (String × ℚ × ℚ)) :
    aggFrame [] u mu ob ep iu = ([], []) ∧
      aggClip extract ([] : List (ClipSub π)) u mu = ([], []) := ⟨rfl, rfl⟩

/-! ## C10: frame-mode label cleaning -/

/-- Stripping whitespace introduces no new characters. -/
theorem mem_stripSpaces {x : Char} {l : List Char} (h : x ∈ stripSpaces l) : x ∈ l := by
  unfold stripSpaces at h
  rw [List.mem_reverse] at h
  have h2 := (List.dropWhile_sublist _).subset h
  rw [List.mem_reverse] at h2
  exact (List.dropWhile_sublist _).subset h2

/-- A cleaned label never contains "(". -/
theorem paren_not_mem_cleanLabel (l : String) : '(' ∉ (cleanLabel l).toList := by
  intro h
  have h1 : '(' ∈ stripSpaces (l.toList.takeWhile (fun c => decide (c ≠ '('))) := h
  have h2 := mem_stripSpaces h1
  have h3 := List.mem_takeWhile_imp h2
  simp at h3

/-- Every group key's label is the label of some row of the grouped table. -/
theorem frameKeys_label (ne : List (Mutated FrameRow)) (k : String × String × Option Int)
    (hk : k ∈ frameKeys ne) : ∃ m ∈ ne, m.base.label = some k.2.1 := by
  unfold frameKeys at hk
  by_cases hf : frameUseFrame ne = true
  · rw [if_pos hf] at hk
    rcases List.mem_filterMap.mp (List.mem_dedup.mp hk) with ⟨m, hm, hmk⟩
    refine ⟨m, hm, ?_⟩
    cases hfn : m.base.filename with
    | none => rw [hfn] at hmk; simp at hmk
    | some f =>
      cases hlb : m.base.label with
      | none => rw [hfn, hlb] at hmk; simp at hmk
      | some l =>
        cases hfr : m.base.frame_number with
        | none => rw [hfn, hlb, hfr] at hmk; simp at hmk
        | some fr =>
            rw [hfn, hlb, hfr] at hmk
            simp only [Option.some.injEq] at hmk
            rw [← hmk]
  · rw [if_neg hf] at hk
    rcases List.mem_filterMap.mp (List.mem_dedup.mp hk) with ⟨m, hm, hmk⟩
    refine ⟨m, hm, ?_⟩
    cases hfn : m.base.filename with
    | none => rw [hfn] at hmk; simp at hmk
    | some f =>
      cases hlb : m.base.label with
      | none => rw [hfn, hlb] at hmk; simp at hmk
      | some l =>
          rw [hfn, hlb] at hmk
          simp only [Option.some.injEq] at hmk
          rw [← hmk]

/-- C10: every label of the frame branch's output is either the "empty"
sentinel or the cleaned form (truncate at the first "(", strip surrounding
whitespace) of the label of some retained (participation- and
agreement-filtered) row; consequently no output label contains "(", so a
raw tool label containing "(" never appears verbatim in the output. -/
theorem c10_output_labels_cleaned (df : List FrameSub) (u : ℚ) (mu : Int) (ob ep iu : ℚ) :
    ∀ r ∈ (aggFrame df u mu ob ep iu).1, ∀ s : String, r.label = some s →
      (s = "empty" ∨
        ∃ m ∈ (aggregrate_labels frameProj (processFrames df) u mu).2,
          ∃ l : String, m.base.label = some l ∧ s = cleanLabel l) ∧
        '(' ∉ s.toList := by
  intro r hr s hs
  have heq : (aggFrame df u mu ob ep iu).1
      = frameFinal (processFrames df)
          ((aggregrate_labels frameProj (processFrames df) u mu).2) ob ep iu := rfl
  rw [heq] at hr
  unfold frameFinal at hr
  rcases mem_leftMergeBy hr with ⟨r6, hr6, hcase⟩
  have hlab : r.label = r6.label := by
    rcases hcase with h | ⟨b, _, _, h⟩ <;> rw [h]
  rw [hlab] at hs
  rcases List.mem_append.mp (List.mem_dedup.mp hr6) with hnew | hemp
  · rcases List.mem_flatMap.mp hnew with ⟨k, hk, hrk⟩
    unfold newRowsOfKey at hrk
    rcases List.mem_map.mp hrk with ⟨p, hp, rfl⟩
    simp only [Option.some.injEq] at hs
    rcases frameKeys_label _ k hk with ⟨m, hm, hml⟩
    have hmagg : m ∈ (aggregrate_labels frameProj (processFrames df) u mu).2 :=
      (List.mem_filter.mp hm).1
    subst hs
    constructor
    · right
      exact ⟨m, hmagg, k.2.1, hml, rfl⟩
    · exact paren_not_mem_cleanLabel k.2.1
  · unfold frameEmpties at hemp
    rcases List.mem_map.mp hemp with ⟨m, hm, rfl⟩
    have hml : m.base.label = some "empty" := by
      have := (List.mem_filter.mp hm).2
      exact of_decide_eq_true this
    rw [hml] at hs
    simp only [Option.some.injEq] at hs
    subst hs
    exact ⟨Or.inl rfl, by decide⟩

/-- Witness for C10: the theorem applied to the one-classification batch
`dfC10` (whose subject aggregates as "empty"), together with a concrete
evaluation of the cleaning function of line 527. -/
theorem c10_output_labels_cleaned_witness :
    (((("empty" : String) = "empty") ∨
        ∃ m ∈ (aggregrate_labels frameProj (processFrames dfC10) (0 : ℚ) (1 : Int)).2,
          ∃ l : String, m.base.label = some l ∧ "empty" = cleanLabel l) ∧
      '(' ∉ ("empty" : String).toList) ∧
      cleanLabel "fish (adult)" = "fish" := by
  have hdiv : ((1 : Nat) : ℚ) / ((1 : Nat) : ℚ) = 1 := by norm_num
  have e2 : (aggregrate_labels frameProj (processFrames dfC10) (0 : ℚ) (1 : Int)).2
      = [⟨⟨1, none, none, none, none, some "empty", some "http://a", some "f1",
          some "frame", some 7, some 3, some "alice", some 2⟩,
         some 1, some 1, some 1⟩] := by
    calc (aggregrate_labels frameProj (processFrames dfC10) (0 : ℚ) (1 : Int)).2
        = List.filter (aggPred 0)
            [⟨⟨1, none, none, none, none, some "empty", some "http://a", some "f1",
               some "frame", some 7, some 3, some "alice", some 2⟩,
              some 1, some 1, some (((1 : Nat) : ℚ) / ((1 : Nat) : ℚ))⟩] := rfl
      _ = [⟨⟨1, none, none, none, none, some "empty", some "http://a", some "f1",
               some "frame", some 7, some 3, some "alice", some 2⟩,
              some 1, some 1, some 1⟩] := by rw [hdiv]; decide
  have hmem : (⟨some 7, some "empty", none, none, none, none, some "http://a",
      some "frame", some "f1"⟩ : FrameAgg) ∈ (aggFrame dfC10 0 1 0 0 0).1 := by
    have heq : (aggFrame dfC10 0 1 0 0 0).1
        = frameFinal (processFrames dfC10)
            ((aggregrate_labels frameProj (processFrames dfC10) (0 : ℚ) (1 : Int)).2)
            0 0 0 := rfl
    rw [heq, e2]
    decide
  exact ⟨c10_output_labels_cleaned dfC10 0 1 0 0 0 _ hmem "empty" rfl, by decide⟩

/-! ## C9: the in-place mutation of the caller's dataframe

Line 386 assigns the `n_users` column on the caller's dataframe itself; the
filter of line 391 then rebinds the local name to a fresh copy, so the
`class_n` and `class_prop` assignments of lines 394 and 399 land on that
copy, never on the caller's dataframe. -/

/-- C9 counterexample: after the call, the caller's dataframe has *not*
gained the `class_n` and `class_prop` columns (only `n_users`). -/
theorem c9_counterexample_only_n_users_added :
    ¬ (∀ m ∈ (aggregrate_labels classProj dfC1 (0 : ℚ) (1 : Int)).1,
        m.class_n.isSome ∧ m.class_prop.isSome) := by decide

/-- C9 (amended): the call mutates the input in place, but the input gains
only the `n_users` column; every pre-existing column and row is unchanged,
and `class_n` / `class_prop` are never added to the caller's dataframe. -/
theorem c9_mutation_adds_only_n_users (df : List ClassRow) (u : ℚ) (mu : Int) :
    ((aggregrate_labels classProj df u mu).1.map (·.base) = df) ∧
      (∀ m ∈ (aggregrate_labels classProj df u mu).1,
        m.n_users = some (nUsersOf classProj df m.base.subject_ids) ∧
          m.class_n = none ∧ m.class_prop = none) := by
  constructor
  · show List.map _ (List.map _ df) = df
    rw [List.map_map]
    exact List.map_id'' (fun r => rfl) df
  · intro m hm
    rcases mem_mutInit classProj df m hm with ⟨-, hn, hcn, hcp⟩
    simp only [classProj, Option.map_some'] at hn
    exact ⟨hn, hcn, hcp⟩

/-- Witness for C9: the amended theorem applied at `dfC1`, with the first
mutated row as the concrete member. -/
theorem c9_mutation_adds_only_n_users_witness :
    ((aggregrate_labels classProj dfC1 (0 : ℚ) (1 : Int)).1.map (·.base) = dfC1) ∧
      ((⟨⟨100, 1, "alice", "fish"⟩, some 2, none, none⟩ : Mutated ClassRow).n_users =
          some (nUsersOf classProj dfC1 1) ∧
        (⟨⟨100, 1, "alice", "fish"⟩, some 2, none, none⟩ : Mutated ClassRow).class_n = none ∧
        (⟨⟨100, 1, "alice", "fish"⟩, some 2, none, none⟩ : Mutated ClassRow).class_prop = none) :=
  ⟨(c9_mutation_adds_only_n_users dfC1 0 1).1,
    (c9_mutation_adds_only_n_users dfC1 0 1).2 _ (by decide)⟩

end KsoUtils
